import Mathlib

/-!
Verification of the Mesh Integrity Validator of the portfolio repository.

The validator is the `useEffect` body of the `Earth` component
(src/unnamed/part_000, lines 12-122; the same logic appears as the second
revision of `Computers` in src/src/components/canvas/Computers.jsx,
lines 186-299).  The spec collapses the revisions into a single pure
contract `validate(scene) -> Valid(scene) | Invalid`; the embedding below
follows the fullest revision, which is the one the spec's algorithm
describes step by step (early exit at the top of the traversal callback,
radius positivity check, all six bounding-box coordinates).

JavaScript numbers are modelled by the type `Scalar`: a finite rational,
NaN, or one of the two infinities.  Only classification (finiteness) and
the comparison `radius <= 0` are ever applied to the numbers, so no other
floating-point behaviour needs to be modelled.

The scene graph and the bounding-volume computations belong to the external
three.js library, treated per the spec as an externally supplied
capability: the scene is a tree of nodes traversed in preorder (three.js
`Object3D.traverse`), and `computeBoundingSphere` / `computeBoundingBox`
on the cloned geometry are abstracted as a `BoundsEnv` function giving, for
a geometry, either a raised exception or the computed sphere and box.
-/

namespace MeshValidator

/-- A JavaScript number as the validator observes it: a finite value
(modelled as a rational), NaN, or one of the two infinities. -/
inductive Scalar where
  | fin (q : ℚ)
  | nan
  | inf
  | ninf
deriving DecidableEq

/-- JavaScript `isFinite`: true exactly on finite numbers. -/
def Scalar.isFinite : Scalar → Bool
  | .fin _ => true
  | _ => false

/-- JavaScript comparison `x <= 0` as used on the bounding-sphere radius:
NaN and +Infinity compare false, -Infinity compares true. -/
def Scalar.le0 : Scalar → Bool
  | .fin q => decide (q ≤ 0)
  | .nan => false
  | .inf => false
  | .ninf => true

/-- A three.js `BufferAttribute`: a flat numeric array plus the item size
(components per vertex).  `count` and the `getX`/`getY`/`getZ` accessors
are derived from these two fields exactly as in the library. -/
structure BufferAttribute where
  itemSize : Nat
  array : List Scalar
deriving DecidableEq

/-- The number of iterations of the accessor loop
`for (i = 0; i < positions.count; i++)`.  three.js sets
`count = array.length / itemSize` with JavaScript real division, so on a
ragged buffer (length not a multiple of the item size) the fractional
count still admits the next integer and the loop runs
`⌈length / itemSize⌉` times, reading past the end of the array on its
last iteration.  (For `itemSize = 0` and a non-empty array the JS loop
would not terminate; that configuration is unreachable — loader-built
attributes always have a positive item size — and is modelled as zero
iterations.) -/
def BufferAttribute.count (a : BufferAttribute) : Nat :=
  (a.array.length + a.itemSize - 1) / a.itemSize

/-- Reading a JavaScript array out of range yields `undefined`, which
behaves like NaN under `isFinite`; in range it is the stored element. -/
def jsGet (l : List Scalar) (i : Nat) : Scalar :=
  l.getD i Scalar.nan

/-- The raw-array scan of part_000: `for (i...) if (!isFinite(arr[i]))
hasIssue = true` — true when some element of the array is non-finite. -/
def scanArray (a : BufferAttribute) : Bool :=
  a.array.any fun s => !s.isFinite

/-- The accessor scan of part_000 on the position attribute:
`for (i < positions.count) { getX(i); getY(i); getZ(i) }` with
`getX(i) = array[i*itemSize]` and so on. -/
def scanPositionAccessors (a : BufferAttribute) : Bool :=
  (List.range a.count).any fun i =>
    !(jsGet a.array (i * a.itemSize)).isFinite ||
    !(jsGet a.array (i * a.itemSize + 1)).isFinite ||
    !(jsGet a.array (i * a.itemSize + 2)).isFinite

/-- A geometry: the three attribute buffers the validator inspects.
`position` is optional because the code guards with `positions?.array`. -/
structure Geometry where
  position : Option BufferAttribute
  normal : Option BufferAttribute
  uv : Option BufferAttribute
deriving DecidableEq

/-- The attribute-scanning phase of the per-mesh validation
(part_000 lines 30-79): position raw scan, then position accessor scan,
then normal raw scan, then uv raw scan, each gated on no issue so far. -/
def attrIssue (g : Geometry) : Bool :=
  (match g.position with
   | some p => scanArray p || scanPositionAccessors p
   | none => false) ||
  (match g.normal with
   | some n => scanArray n
   | none => false) ||
  (match g.uv with
   | some u => scanArray u
   | none => false)

/-- A computed bounding sphere: only its radius is inspected. -/
structure Sphere where
  radius : Scalar
deriving DecidableEq

/-- A computed axis-aligned bounding box: the six min/max coordinates. -/
structure Box3 where
  minX : Scalar
  minY : Scalar
  minZ : Scalar
  maxX : Scalar
  maxY : Scalar
  maxZ : Scalar
deriving DecidableEq

/-- Outcome of running `computeBoundingSphere` and `computeBoundingBox`
on the cloned geometry: the library call may raise, or it yields the
(possibly null, hence `Option`) sphere and box the code then inspects. -/
inductive BoundsOutcome where
  | raises
  | ok (sphere : Option Sphere) (box : Option Box3)
deriving DecidableEq

/-- The external three.js bounding-volume computation, abstracted as a
function of the geometry (the clone is structurally identical to the
original, so the outcome is a function of the original's data). -/
def BoundsEnv : Type :=
  Geometry → BoundsOutcome

/-- The code's sphere test (part_000 lines 88-92):
`!boundingSphere || !isFinite(radius) || radius <= 0`. -/
def sphereIssue : Option Sphere → Bool
  | none => true
  | some s => !s.radius.isFinite || s.radius.le0

/-- The code's box test (part_000 lines 94-100): when a box is present,
any non-finite min/max coordinate is an issue; a null box is skipped. -/
def boxIssue : Option Box3 → Bool
  | none => false
  | some b =>
    !b.minX.isFinite || !b.minY.isFinite || !b.minZ.isFinite ||
    !b.maxX.isFinite || !b.maxY.isFinite || !b.maxZ.isFinite

/-- A scene-graph node (three.js `Object3D`): a mesh flag, an optional
geometry, and child nodes. -/
inductive SceneNode where
  | mk (isMesh : Bool) (geometry : Option Geometry) (children : List SceneNode)

/-- Whether the node is a mesh (`child.isMesh`). -/
def SceneNode.isMesh : SceneNode → Bool
  | .mk m _ _ => m

/-- The node's geometry (`child.geometry`). -/
def SceneNode.geometry : SceneNode → Option Geometry
  | .mk _ g _ => g

/-- The node's children. -/
def SceneNode.children : SceneNode → List SceneNode
  | .mk _ _ c => c

mutual

/-- three.js `Object3D.traverse` visit order: the node itself, then each
child subtree, depth first.  `traverse` cannot be aborted, so the
validator's callback runs (at least its leading guard) on every node. -/
def allNodes : SceneNode → List SceneNode
  | .mk m g cs => .mk m g cs :: allNodesList cs

/-- Preorder flattening of a list of sibling subtrees. -/
def allNodesList : List SceneNode → List SceneNode
  | [] => []
  | n :: rest => allNodes n ++ allNodesList rest

end

/-- The guard `child.isMesh && child.geometry`: the geometry the callback
inspects, when the node is a mesh carrying one. -/
def nodeGeom (n : SceneNode) : Option Geometry :=
  if n.isMesh then n.geometry else none

/-- The geometries of all mesh nodes of the scene, in traversal order. -/
def meshGeoms (sc : SceneNode) : List Geometry :=
  (allNodes sc).filterMap nodeGeom

/-- The mutable state of one validation run: the original scene as the run
leaves it (the code never writes to it, only reads), the `hasIssue` flag,
whether some bounding-volume computation raised, and how many disposable
geometry clones are currently allocated. -/
structure RunState where
  scene : SceneNode
  hasIssue : Bool
  raised : Bool
  copies : Nat

/-- The per-mesh body (part_000 lines 26-112): attribute scans, then —
only if no issue yet — `geometry.clone()` (allocating a disposable copy),
the bounding computations, the sphere and box tests, and
`testGeometry.dispose()`.  `dispose` is the last statement of the `try`
block: when the bounding computation raises, the `catch` sets the issue
flag but the clone is never disposed, so `copies` stays incremented. -/
def checkMesh (env : BoundsEnv) (st : RunState) (g : Geometry) : RunState :=
  if attrIssue g then
    { st with hasIssue := true }
  else
    match env g with
    | .raises =>
      { st with hasIssue := true, raised := true, copies := st.copies + 1 }
    | .ok sph box =>
      let issue := if sphereIssue sph then true else boxIssue box
      -- clone allocated, tests run, then disposed: copies net unchanged
      { st with hasIssue := st.hasIssue || issue }

/-- The traversal callback (part_000 lines 23-113): `if (hasIssue) return;`
at the top, then the per-mesh body when the node is a mesh with geometry. -/
def visitNode (env : BoundsEnv) (st : RunState) (n : SceneNode) : RunState :=
  if st.hasIssue then st
  else
    match nodeGeom n with
    | some g => checkMesh env st g
    | none => st

/-- One whole run of the validation effect body over a present scene:
fold the callback over the traversal order, starting from a clean state. -/
def runValidate (env : BoundsEnv) (sc : SceneNode) : RunState :=
  (allNodes sc).foldl (visitNode env) ⟨sc, false, false, 0⟩

/-- The validation result: the sum type of the spec, `Valid` carrying the
scene handed to the renderer (`setValidatedModel(earth.scene)`) and
`Invalid` the fallback signal (`setValidatedModel(null)`). -/
inductive ValidationResult where
  | Valid (scene : SceneNode)
  | Invalid

/-- The validator contract `validate(scene) -> Valid(scene) | Invalid`:
an absent scene is `Invalid` (part_000 lines 13-17); otherwise run the
traversal and return `Valid` with the original scene exactly when no
issue was found (`setValidatedModel(hasIssue ? null : earth.scene)`). -/
def validate (env : BoundsEnv) : Option SceneNode → ValidationResult
  | none => .Invalid
  | some sc =>
    if (runValidate env sc).hasIssue then .Invalid else .Valid sc

/-- The scene reference as it stands after one call of `validate`: absent
stays absent, a present scene is whatever state the run left it in. -/
def afterValidate (env : BoundsEnv) : Option SceneNode → Option SceneNode
  | none => none
  | some sc => some ((runValidate env sc).scene)

/-- The per-geometry verdict, composed of the attribute scans and the
bounding-volume tests (a raised computation counts as an issue). -/
def geomIssue (env : BoundsEnv) (g : Geometry) : Bool :=
  attrIssue g ||
    match env g with
    | .raises => true
    | .ok sph box => if sphereIssue sph then true else boxIssue box

/-- Spec-level predicate: the geometry contains at least one NaN or
Infinity scalar in some present attribute buffer. -/
def geomHasBadScalar (g : Geometry) : Prop :=
  ∃ a, (g.position = some a ∨ g.normal = some a ∨ g.uv = some a) ∧
    ∃ s ∈ a.array, s.isFinite = false

/-- Spec-level predicate: every scalar of every present attribute buffer
of the geometry is finite. -/
def geomAllFinite (g : Geometry) : Prop :=
  (∀ a, g.position = some a → ∀ s ∈ a.array, s.isFinite = true) ∧
  (∀ a, g.normal = some a → ∀ s ∈ a.array, s.isFinite = true) ∧
  (∀ a, g.uv = some a → ∀ s ∈ a.array, s.isFinite = true)

/-- The spec's data-model invariant consumed by the accessor loop: a
position buffer is a sequence of 3-component triples (as the glTF loader
always produces), so its item size is 3 and its length is a multiple
of 3 — a ragged buffer would make the last accessor iteration read past
the end of the array and be flagged non-finite. -/
def positionWellFormed (g : Geometry) : Prop :=
  ∀ a, g.position = some a → a.itemSize = 3 ∧ 3 ∣ a.array.length

/-- Spec-level predicate: the bounding computation succeeded and yielded a
finite, strictly positive sphere radius and finite box coordinates. -/
def boundsFine (out : BoundsOutcome) : Prop :=
  ∃ sph box, out = .ok (some sph) (some box) ∧
    (∃ q : ℚ, sph.radius = .fin q ∧ 0 < q) ∧
    box.minX.isFinite = true ∧ box.minY.isFinite = true ∧
    box.minZ.isFinite = true ∧ box.maxX.isFinite = true ∧
    box.maxY.isFinite = true ∧ box.maxZ.isFinite = true

/-- Spec-level predicate: the bounding computation succeeded but yielded a
degenerate result — a non-finite or non-positive sphere radius, or some
non-finite box min/max coordinate. -/
def boundsDegenerate (out : BoundsOutcome) : Prop :=
  ∃ sph box, out = .ok (some sph) (some box) ∧
    (sph.radius.isFinite = false ∨ (∃ q : ℚ, sph.radius = .fin q ∧ q ≤ 0) ∨
      box.minX.isFinite = false ∨ box.minY.isFinite = false ∨
      box.minZ.isFinite = false ∨ box.maxX.isFinite = false ∨
      box.maxY.isFinite = false ∨ box.maxZ.isFinite = false)

/-! ### Concrete scenes and environments for the spec's scenarios -/

/-- Position buffer `[0,0,0, 1,1,1]` of the spec's Valid scenario. -/
def bufPosUnit : BufferAttribute :=
  ⟨3, [.fin 0, .fin 0, .fin 0, .fin 1, .fin 1, .fin 1]⟩

/-- A normal buffer containing a NaN. -/
def bufNormalNaN : BufferAttribute :=
  ⟨3, [.fin 0, .fin 0, .fin 1, .nan, .fin 0, .fin 1]⟩

/-- Position buffer `[0,0,0, Infinity,0,0]` of the spec's scenario. -/
def bufPosInf : BufferAttribute :=
  ⟨3, [.fin 0, .fin 0, .fin 0, .inf, .fin 0, .fin 0]⟩

/-- A clean single-segment geometry: finite positions, no normal/uv. -/
def geomUnitSeg : Geometry := ⟨some bufPosUnit, none, none⟩

/-- A geometry with finite positions but a NaN in its normal buffer. -/
def geomNaNNormal : Geometry := ⟨some bufPosUnit, some bufNormalNaN, none⟩

/-- A geometry with an Infinity in its position buffer. -/
def geomInfPos : Geometry := ⟨some bufPosInf, none, none⟩

/-- A scene with a single clean mesh under a group root. -/
def sceneUnitSeg : SceneNode :=
  .mk false none [.mk true (some geomUnitSeg) []]

/-- A scene with two meshes: the first valid, the second carrying a NaN
normal. -/
def sceneTwoMesh : SceneNode :=
  .mk false none
    [.mk true (some geomUnitSeg) [], .mk true (some geomNaNNormal) []]

/-- A scene with a single mesh whose position buffer contains Infinity. -/
def sceneInfPos : SceneNode :=
  .mk false none [.mk true (some geomInfPos) []]

/-- A scene with no mesh node at all: a group with one non-mesh child
(e.g. a light). -/
def sceneEmptyGroup : SceneNode :=
  .mk false none [.mk false none []]

/-- A unit bounding sphere. -/
def sphUnit : Sphere := ⟨.fin 1⟩

/-- A degenerate bounding sphere of radius 0. -/
def sphZero : Sphere := ⟨.fin 0⟩

/-- A finite unit bounding box. -/
def boxUnit : Box3 := ⟨.fin 0, .fin 0, .fin 0, .fin 1, .fin 1, .fin 1⟩

/-- A bounding environment that always succeeds with fine volumes. -/
def envFine : BoundsEnv := fun _ => .ok (some sphUnit) (some boxUnit)

/-- A bounding environment in which the library call always raises. -/
def envRaises : BoundsEnv := fun _ => .raises

/-- A bounding environment yielding a zero-radius sphere. -/
def envZeroRadius : BoundsEnv := fun _ => .ok (some sphZero) (some boxUnit)

/-! ### Core lemmas about one run -/

/-- When no issue has been found yet, the per-mesh body's issue flag is the
per-geometry verdict. -/
lemma checkMesh_hasIssue (env : BoundsEnv) (st : RunState) (g : Geometry)
    (h : st.hasIssue = false) :
    (checkMesh env st g).hasIssue = geomIssue env g := by
  unfold checkMesh geomIssue
  cases hA : attrIssue g with
  | true => simp
  | false =>
    cases hE : env g with
    | raises => simp
    | ok sph box => simp [h]

/-- The per-mesh body never touches the scene. -/
lemma checkMesh_scene (env : BoundsEnv) (st : RunState) (g : Geometry) :
    (checkMesh env st g).scene = st.scene := by
  unfold checkMesh
  cases attrIssue g with
  | true => rfl
  | false => cases env g <;> rfl

/-- The traversal callback never touches the scene. -/
lemma visitNode_scene (env : BoundsEnv) (st : RunState) (n : SceneNode) :
    (visitNode env st n).scene = st.scene := by
  unfold visitNode
  cases st.hasIssue with
  | true => rfl
  | false =>
    cases nodeGeom n with
    | none => rfl
    | some g => simpa using checkMesh_scene env st g

/-- Folding the callback over any node list leaves the scene untouched. -/
lemma foldl_visit_scene (env : BoundsEnv) (l : List SceneNode) (st : RunState) :
    (l.foldl (visitNode env) st).scene = st.scene := by
  induction l generalizing st with
  | nil => rfl
  | cons n rest ih => rw [List.foldl_cons, ih, visitNode_scene]

/-- Once an issue is recorded, the callback does nothing at all to the
state: no scan, no clone, no bounding computation. -/
lemma visitNode_of_issue (env : BoundsEnv) (st : RunState) (n : SceneNode)
    (h : st.hasIssue = true) :
    visitNode env st n = st := by
  unfold visitNode
  rw [h]
  rfl

/-- Once an issue is recorded, the remainder of the traversal leaves the
state unchanged. -/
lemma foldl_visit_of_issue (env : BoundsEnv) (l : List SceneNode)
    (st : RunState) (h : st.hasIssue = true) :
    l.foldl (visitNode env) st = st := by
  induction l with
  | nil => rfl
  | cons n rest ih => rw [List.foldl_cons, visitNode_of_issue env st n h, ih]

/-- The issue flag after folding over a node list: the flag coming in,
or some mesh geometry of the list has an issue. -/
lemma foldl_visit_hasIssue (env : BoundsEnv) (l : List SceneNode)
    (st : RunState) :
    (l.foldl (visitNode env) st).hasIssue =
      (st.hasIssue || (l.filterMap nodeGeom).any (geomIssue env)) := by
  induction l generalizing st with
  | nil => simp
  | cons n rest ih =>
    rw [List.foldl_cons]
    cases h : st.hasIssue with
    | true =>
      rw [visitNode_of_issue env st n h, ih, h]
      simp
    | false =>
      cases hG : nodeGeom n with
      | none =>
        have hv : visitNode env st n = st := by
          unfold visitNode
          rw [h, hG]
          simp
        rw [hv, ih, List.filterMap_cons_none hG, h]
      | some g =>
        have hv : visitNode env st n = checkMesh env st g := by
          unfold visitNode
          rw [h, hG]
          simp
        rw [hv, ih, List.filterMap_cons_some hG,
          checkMesh_hasIssue env st g h]
        simp [List.any_cons, h]

/-- The issue flag of a full run is exactly: some mesh geometry of the
scene has an issue. -/
lemma runValidate_hasIssue (env : BoundsEnv) (sc : SceneNode) :
    (runValidate env sc).hasIssue = (meshGeoms sc).any (geomIssue env) := by
  unfold runValidate meshGeoms
  rw [foldl_visit_hasIssue]
  simp

/-- A full run leaves the original scene untouched. -/
lemma runValidate_scene (env : BoundsEnv) (sc : SceneNode) :
    (runValidate env sc).scene = sc := by
  unfold runValidate
  rw [foldl_visit_scene]

/-- The callback preserves the invariant that a recorded raise implies a
recorded issue (the catch block sets the flag). -/
lemma visitNode_raised_imp (env : BoundsEnv) (st : RunState) (n : SceneNode)
    (h : st.raised = true → st.hasIssue = true) :
    (visitNode env st n).raised = true → (visitNode env st n).hasIssue = true := by
  unfold visitNode
  cases hI : st.hasIssue with
  | true => simpa using h
  | false =>
    cases nodeGeom n with
    | none => simpa using h
    | some g =>
      unfold checkMesh
      cases hA : attrIssue g with
      | true => simp [hA]
      | false =>
        cases hE : env g with
        | raises => simp [hA, hE]
        | ok sph box =>
          simp only [hA, hE, Bool.false_eq_true, if_false, hI]
          intro hr
          have hst := h hr
          rw [hI] at hst
          exact absurd hst (by simp)

/-- Folding preserves the raise-implies-issue invariant. -/
lemma foldl_visit_raised_imp (env : BoundsEnv) (l : List SceneNode)
    (st : RunState) (h : st.raised = true → st.hasIssue = true) :
    (l.foldl (visitNode env) st).raised = true →
      (l.foldl (visitNode env) st).hasIssue = true := by
  induction l generalizing st with
  | nil => exact h
  | cons n rest ih =>
    rw [List.foldl_cons]
    exact ih _ (visitNode_raised_imp env st n h)

/-- A run in which some bounding-volume computation raised is a run that
recorded an issue. -/
lemma runValidate_raised_imp (env : BoundsEnv) (sc : SceneNode)
    (h : (runValidate env sc).raised = true) :
    (runValidate env sc).hasIssue = true := by
  unfold runValidate at *
  exact foldl_visit_raised_imp env _ _ (by intro hr; cases hr) h

/-- `validate` on a present scene returns `Invalid` exactly when some mesh
geometry of the scene has an issue. -/
lemma validate_some_invalid_iff (env : BoundsEnv) (sc : SceneNode) :
    validate env (some sc) = .Invalid ↔
      (meshGeoms sc).any (geomIssue env) = true := by
  have hv : validate env (some sc) =
      if (runValidate env sc).hasIssue then .Invalid else .Valid sc := rfl
  rw [hv, runValidate_hasIssue]
  cases (meshGeoms sc).any (geomIssue env) <;> simp

/-- `validate` on a present scene returns `Valid` with the original scene
exactly when no mesh geometry of the scene has an issue. -/
lemma validate_some_valid_iff (env : BoundsEnv) (sc : SceneNode) :
    validate env (some sc) = .Valid sc ↔
      (meshGeoms sc).any (geomIssue env) = false := by
  have hv : validate env (some sc) =
      if (runValidate env sc).hasIssue then .Invalid else .Valid sc := rfl
  rw [hv, runValidate_hasIssue]
  cases (meshGeoms sc).any (geomIssue env) <;> simp

/-! ### Bridging the spec-level predicates to the code's scans -/

/-- A non-finite member makes the raw-array scan fire. -/
lemma scanArray_true_of_mem {a : BufferAttribute} {s : Scalar}
    (hs : s ∈ a.array) (hbad : s.isFinite = false) : scanArray a = true := by
  unfold scanArray
  rw [List.any_eq_true]
  exact ⟨s, hs, by simp [hbad]⟩

/-- An all-finite buffer passes the raw-array scan. -/
lemma scanArray_false_of_finite (a : BufferAttribute)
    (hall : ∀ s ∈ a.array, s.isFinite = true) : scanArray a = false := by
  unfold scanArray
  rw [List.any_eq_false]
  intro s hs
  simp [hall s hs]

/-- Reading inside the bounds of an all-finite array yields a finite
scalar. -/
lemma jsGet_finite {l : List Scalar} (hall : ∀ s ∈ l, s.isFinite = true)
    {i : Nat} (hi : i < l.length) : (jsGet l i).isFinite = true := by
  unfold jsGet
  rw [List.getD_eq_getElem l _ hi]
  exact hall _ (List.getElem_mem hi)

/-- An all-finite position buffer of whole triples passes the accessor
scan: with the length a multiple of the item size the loop runs exactly
`length / 3` iterations and every index the getters read is in bounds. -/
lemma scanPositionAccessors_false (a : BufferAttribute) (h3 : a.itemSize = 3)
    (hdvd : 3 ∣ a.array.length)
    (hall : ∀ s ∈ a.array, s.isFinite = true) :
    scanPositionAccessors a = false := by
  unfold scanPositionAccessors BufferAttribute.count
  rw [List.any_eq_false]
  intro i hi
  rw [List.mem_range, h3] at hi
  rw [h3]
  have h0 : i * 3 < a.array.length := by omega
  have h1 : i * 3 + 1 < a.array.length := by omega
  have h2 : i * 3 + 2 < a.array.length := by omega
  simp [jsGet_finite hall h0, jsGet_finite hall h1, jsGet_finite hall h2]

/-- Any bad scalar in a present buffer makes the attribute phase fire. -/
lemma attrIssue_true_of_bad {g : Geometry} (h : geomHasBadScalar g) :
    attrIssue g = true := by
  obtain ⟨a, hmem, s, hs, hbad⟩ := h
  unfold attrIssue
  rcases hmem with hP | hN | hU
  · simp [hP, scanArray_true_of_mem hs hbad]
  · simp [hN, scanArray_true_of_mem hs hbad]
  · simp [hU, scanArray_true_of_mem hs hbad]

/-- The attribute phase is quiet on a well-formed, all-finite geometry. -/
lemma attrIssue_false_of_finite {g : Geometry} (hwf : positionWellFormed g)
    (hfin : geomAllFinite g) : attrIssue g = false := by
  obtain ⟨hp, hn, hu⟩ := hfin
  unfold attrIssue
  cases hP : g.position with
  | none =>
    cases hN : g.normal with
    | none =>
      cases hU : g.uv with
      | none => simp [hP, hN, hU]
      | some u => simp [hP, hN, hU, scanArray_false_of_finite u (hu u hU)]
    | some n =>
      cases hU : g.uv with
      | none => simp [hP, hN, hU, scanArray_false_of_finite n (hn n hN)]
      | some u =>
        simp [hP, hN, hU, scanArray_false_of_finite n (hn n hN),
          scanArray_false_of_finite u (hu u hU)]
  | some p =>
    have hps := scanArray_false_of_finite p (hp p hP)
    have hpa := scanPositionAccessors_false p (hwf p hP).1 (hwf p hP).2 (hp p hP)
    cases hN : g.normal with
    | none =>
      cases hU : g.uv with
      | none => simp [hP, hN, hU, hps, hpa]
      | some u => simp [hP, hN, hU, hps, hpa, scanArray_false_of_finite u (hu u hU)]
    | some n =>
      cases hU : g.uv with
      | none => simp [hP, hN, hU, hps, hpa, scanArray_false_of_finite n (hn n hN)]
      | some u =>
        simp [hP, hN, hU, hps, hpa, scanArray_false_of_finite n (hn n hN),
          scanArray_false_of_finite u (hu u hU)]

/-- A geometry whose attribute phase fires is an issue regardless of the
bounding environment. -/
lemma geomIssue_true_of_attr (env : BoundsEnv) {g : Geometry}
    (h : attrIssue g = true) : geomIssue env g = true := by
  unfold geomIssue
  rw [h]
  simp

/-- A raising bounding computation makes the geometry an issue. -/
lemma geomIssue_true_of_raises (env : BoundsEnv) {g : Geometry}
    (hE : env g = .raises) : geomIssue env g = true := by
  unfold geomIssue
  rw [hE]
  simp

/-- A degenerate bounding result makes the geometry an issue. -/
lemma geomIssue_true_of_degenerate (env : BoundsEnv) {g : Geometry}
    (hb : boundsDegenerate (env g)) : geomIssue env g = true := by
  obtain ⟨sph, box, hE, hbad⟩ := hb
  unfold geomIssue
  rw [hE]
  rcases hbad with h1 | ⟨q, hq, hql⟩ | h | h | h | h | h | h
  · simp [sphereIssue, h1]
  · simp [sphereIssue, Scalar.le0, hq, hql]
  all_goals
    have hbox : boxIssue (some box) = true := by
      unfold boxIssue
      simp [h]
    cases hS : sphereIssue (some sph) with
    | true => simp [hS]
    | false => simp [hS, hbox]

/-- A well-formed, all-finite geometry with a fine bounding result is not
an issue. -/
lemma geomIssue_false_of_fine (env : BoundsEnv) {g : Geometry}
    (hwf : positionWellFormed g) (hfin : geomAllFinite g)
    (hb : boundsFine (env g)) : geomIssue env g = false := by
  obtain ⟨sph, box, hE, ⟨q, hq, hqpos⟩, h1, h2, h3, h4, h5, h6⟩ := hb
  unfold geomIssue
  rw [attrIssue_false_of_finite hwf hfin, hE]
  have hS : sphereIssue (some sph) = false := by
    show (!sph.radius.isFinite || sph.radius.le0) = false
    rw [hq]
    simp only [Scalar.isFinite, Scalar.le0, Bool.not_true, Bool.false_or]
    rw [decide_eq_false_iff_not]
    exact not_le.mpr hqpos
  have hB : boxIssue (some box) = false := by
    show (!box.minX.isFinite || !box.minY.isFinite || !box.minZ.isFinite ||
      !box.maxX.isFinite || !box.maxY.isFinite || !box.maxZ.isFinite) = false
    simp [h1, h2, h3, h4, h5, h6]
  simp [hS, hB]

/-- A single bad mesh geometry anywhere in the scene makes `validate`
return `Invalid`. -/
lemma invalid_of_mem_issue (env : BoundsEnv) {sc : SceneNode} {g : Geometry}
    (hmem : g ∈ meshGeoms sc) (hiss : geomIssue env g = true) :
    validate env (some sc) = .Invalid := by
  rw [validate_some_invalid_iff, List.any_eq_true]
  exact ⟨g, hmem, hiss⟩

/-- The clean concrete geometry satisfies the data-model invariant. -/
lemma geomUnitSeg_wf : positionWellFormed geomUnitSeg := by
  intro a ha
  injection ha with h
  rw [← h]
  exact ⟨rfl, by decide⟩

/-- The clean concrete geometry has only finite scalars. -/
lemma geomUnitSeg_allFinite : geomAllFinite geomUnitSeg := by
  refine ⟨?_, ?_, ?_⟩
  · intro a ha
    injection ha with h
    rw [← h]
    decide
  · intro a ha
    exact absurd ha (by simp [geomUnitSeg])
  · intro a ha
    exact absurd ha (by simp [geomUnitSeg])

/-! ### The claims -/

/-- Claim C1: for every scene in which some mesh node's geometry has at least
one NaN or Infinity scalar in any present attribute buffer (position,
normal, or uv), `validate` returns `Invalid`; in particular a scene with
two meshes where only the second has a NaN in its normal buffer, and a
scene with a single mesh whose position buffer is
`[0,0,0, Infinity,0,0]`, both yield `Invalid` (under every bounding
environment). -/
theorem claim_C1_nonfinite_scalar_invalid :
    (∀ (env : BoundsEnv) (sc : SceneNode),
      (∃ g ∈ meshGeoms sc, geomHasBadScalar g) →
        validate env (some sc) = .Invalid) ∧
    (∀ env : BoundsEnv, validate env (some sceneTwoMesh) = .Invalid) ∧
    (∀ env : BoundsEnv, validate env (some sceneInfPos) = .Invalid) := by
  have main : ∀ (env : BoundsEnv) (sc : SceneNode),
      (∃ g ∈ meshGeoms sc, geomHasBadScalar g) →
        validate env (some sc) = .Invalid := by
    rintro env sc ⟨g, hmem, hbad⟩
    exact invalid_of_mem_issue env hmem
      (geomIssue_true_of_attr env (attrIssue_true_of_bad hbad))
  refine ⟨main, ?_, ?_⟩
  · intro env
    exact main env sceneTwoMesh
      ⟨geomNaNNormal, by decide,
        bufNormalNaN, Or.inr (Or.inl rfl), Scalar.nan, by decide, rfl⟩
  · intro env
    exact main env sceneInfPos
      ⟨geomInfPos, by decide,
        bufPosInf, Or.inl rfl, Scalar.inf, by decide, rfl⟩

/-- Witness for C1: the two-mesh scene with a NaN normal is rejected under
the well-behaved bounding environment. -/
theorem claim_C1_witness :
    validate envFine (some sceneTwoMesh) = .Invalid :=
  claim_C1_nonfinite_scalar_invalid.1 envFine sceneTwoMesh
    ⟨geomNaNNormal, by decide,
      bufNormalNaN, Or.inr (Or.inl rfl), Scalar.nan, by decide, rfl⟩

/-- Claim C2: for every non-null scene in which every scalar of every present
attribute buffer of every mesh geometry is finite (the buffers being
well-formed triples as the data model requires), and every such
geometry's computed bounding sphere radius is finite and strictly
positive with finite bounding box coordinates, `validate` returns
`Valid` with the original, unmodified scene. -/
theorem claim_C2_all_finite_valid (env : BoundsEnv) (sc : SceneNode)
    (h : ∀ g ∈ meshGeoms sc,
      positionWellFormed g ∧ geomAllFinite g ∧ boundsFine (env g)) :
    validate env (some sc) = .Valid sc := by
  rw [validate_some_valid_iff, List.any_eq_false]
  intro g hg
  obtain ⟨hwf, hfin, hb⟩ := h g hg
  simp [geomIssue_false_of_fine env hwf hfin hb]

/-- Witness for C2: the spec's scenario — a single mesh with position
buffer `[0,0,0, 1,1,1]`, no normal/uv — is accepted. -/
theorem claim_C2_witness :
    validate envFine (some sceneUnitSeg) = .Valid sceneUnitSeg := by
  refine claim_C2_all_finite_valid envFine sceneUnitSeg ?_
  intro g hg
  have hm : meshGeoms sceneUnitSeg = [geomUnitSeg] := rfl
  rw [hm] at hg
  have hg' : g = geomUnitSeg := List.mem_singleton.mp hg
  subst hg'
  exact ⟨geomUnitSeg_wf, geomUnitSeg_allFinite,
    sphUnit, boxUnit, rfl, ⟨1, rfl, one_pos⟩, rfl, rfl, rfl, rfl, rfl, rfl⟩

/-- Claim C3: `validate` never propagates an exception: its only outcomes are
`Valid` (with the original scene) and `Invalid`, and a run in which the
bounding-volume computation raised internally yields `Invalid` — the
failure is absorbed. -/
theorem claim_C3_no_exception_escape :
    (∀ (env : BoundsEnv) (s : Option SceneNode),
      validate env s = .Invalid ∨
        ∃ sc, s = some sc ∧ validate env s = .Valid sc) ∧
    (∀ (env : BoundsEnv) (sc : SceneNode),
      (runValidate env sc).raised = true →
        validate env (some sc) = .Invalid) := by
  constructor
  · intro env s
    cases s with
    | none => exact Or.inl rfl
    | some sc =>
      cases hI : (runValidate env sc).hasIssue with
      | true =>
        left
        show (if (runValidate env sc).hasIssue then ValidationResult.Invalid
          else ValidationResult.Valid sc) = ValidationResult.Invalid
        rw [hI]
        simp
      | false =>
        right
        refine ⟨sc, rfl, ?_⟩
        show (if (runValidate env sc).hasIssue then ValidationResult.Invalid
          else ValidationResult.Valid sc) = ValidationResult.Valid sc
        rw [hI]
        simp
  · intro env sc hr
    have hI := runValidate_raised_imp env sc hr
    show (if (runValidate env sc).hasIssue then ValidationResult.Invalid
      else ValidationResult.Valid sc) = ValidationResult.Invalid
    rw [hI]
    simp

/-- Witness for C3: under an always-raising bounding environment the raise
is recorded and the clean one-mesh scene is still just `Invalid`. -/
theorem claim_C3_witness :
    validate envRaises (some sceneUnitSeg) = .Invalid :=
  claim_C3_no_exception_escape.2 envRaises sceneUnitSeg rfl

/-- Claim C4: when the scene argument is absent, `validate` returns `Invalid`
(and, being a total function, does not raise). -/
theorem claim_C4_absent_scene_invalid (env : BoundsEnv) :
    validate env none = .Invalid :=
  rfl

/-- Claim C5: for every mesh geometry whose attribute scalars are all finite,
if the bounding sphere radius computed on the disposable copy is
non-finite or non-positive, or any bounding box min/max coordinate is
non-finite, then `validate` marks the geometry invalid and returns
`Invalid`. -/
theorem claim_C5_degenerate_bounds_invalid (env : BoundsEnv) (sc : SceneNode)
    (h : ∃ g ∈ meshGeoms sc, geomAllFinite g ∧ boundsDegenerate (env g)) :
    validate env (some sc) = .Invalid := by
  obtain ⟨g, hmem, _, hb⟩ := h
  exact invalid_of_mem_issue env hmem (geomIssue_true_of_degenerate env hb)

/-- Witness for C5: a zero-radius bounding sphere on the clean one-mesh
scene yields `Invalid`. -/
theorem claim_C5_witness :
    validate envZeroRadius (some sceneUnitSeg) = .Invalid :=
  claim_C5_degenerate_bounds_invalid envZeroRadius sceneUnitSeg
    ⟨geomUnitSeg, by decide, geomUnitSeg_allFinite,
      sphZero, boxUnit, rfl, Or.inr (Or.inl ⟨0, rfl, le_refl 0⟩)⟩

/-- Claim C6: `validate` never mutates the original scene: the scene the run
leaves behind is the input scene itself, so in particular every attribute
buffer of every mesh geometry is unchanged. -/
theorem claim_C6_no_mutation (env : BoundsEnv) (sc : SceneNode) :
    (runValidate env sc).scene = sc ∧
      meshGeoms ((runValidate env sc).scene) = meshGeoms sc := by
  refine ⟨runValidate_scene env sc, ?_⟩
  rw [runValidate_scene env sc]

/-- Claim C7: `validate` is deterministic and idempotent: a second call on the
scene as the first call left it returns the same result as the first
call (the function is pure, with no hidden state). -/
theorem claim_C7_idempotent (env : BoundsEnv) (s : Option SceneNode) :
    validate env (afterValidate env s) = validate env s := by
  cases s with
  | none => rfl
  | some sc =>
    show validate env (some ((runValidate env sc).scene)) = _
    rw [runValidate_scene env sc]

/-- Claim C8: the code contradicts the claim: when the bounding-volume
computation raises, the `catch` block sets the issue flag but
`testGeometry.dispose()` — the last statement of the `try` block — never
runs, so exactly one disposable clone remains allocated after `validate`
returns `Invalid`. -/
theorem claim_C8_clone_leak_on_raise :
    (runValidate envRaises sceneUnitSeg).copies = 1 ∧
      validate envRaises (some sceneUnitSeg) = .Invalid :=
  ⟨rfl, rfl⟩

/-- Claim C9: `validate` short-circuits: once the issue flag is set, the
traversal callback leaves the state completely unchanged on every
remaining node (no attribute scan, no clone, no bounding computation),
so the traversal of any remaining suffix of nodes is a no-op. -/
theorem claim_C9_short_circuit :
    (∀ (env : BoundsEnv) (st : RunState) (n : SceneNode),
      st.hasIssue = true → visitNode env st n = st) ∧
    (∀ (env : BoundsEnv) (st : RunState) (l1 l2 : List SceneNode),
      (l1.foldl (visitNode env) st).hasIssue = true →
        (l1 ++ l2).foldl (visitNode env) st =
          l1.foldl (visitNode env) st) := by
  constructor
  · exact visitNode_of_issue
  · intro env st l1 l2 h
    rw [List.foldl_append]
    exact foldl_visit_of_issue env l2 _ h

/-- Witness for C9: with the issue flag already set, visiting a further
mesh node changes nothing, and appending a clean mesh after an invalid
one does not alter the outcome of the fold. -/
theorem claim_C9_witness :
    visitNode envFine (RunState.mk sceneUnitSeg true false 0)
        (SceneNode.mk true (some geomUnitSeg) []) =
      RunState.mk sceneUnitSeg true false 0 ∧
    ([SceneNode.mk true (some geomInfPos) []] ++
        [SceneNode.mk true (some geomUnitSeg) []]).foldl
        (visitNode envFine) (RunState.mk sceneUnitSeg false false 0) =
      [SceneNode.mk true (some geomInfPos) []].foldl
        (visitNode envFine) (RunState.mk sceneUnitSeg false false 0) :=
  ⟨claim_C9_short_circuit.1 envFine _ _ rfl,
    claim_C9_short_circuit.2 envFine _ _ _ rfl⟩

/-- Claim C10: for every non-null scene containing no node that is both a mesh
and carries a geometry, `validate` returns `Valid` with the scene: a
scene with nothing to check is vacuously valid. -/
theorem claim_C10_no_mesh_valid (env : BoundsEnv) (sc : SceneNode)
    (h : ∀ n ∈ allNodes sc, ¬(n.isMesh = true ∧ n.geometry.isSome = true)) :
    validate env (some sc) = .Valid sc := by
  rw [validate_some_valid_iff, List.any_eq_false]
  intro g hg
  exfalso
  unfold meshGeoms at hg
  obtain ⟨n, hn, hng⟩ := List.mem_filterMap.mp hg
  unfold nodeGeom at hng
  by_cases hM : n.isMesh = true
  · rw [if_pos hM] at hng
    exact h n hn ⟨hM, by rw [hng]; rfl⟩
  · rw [if_neg hM] at hng
    exact Option.noConfusion hng

/-- Witness for C10: a group containing only a non-mesh child is valid
even under an always-raising bounding environment. -/
theorem claim_C10_witness :
    validate envRaises (some sceneEmptyGroup) = .Valid sceneEmptyGroup :=
  claim_C10_no_mesh_valid envRaises sceneEmptyGroup (by decide)

end MeshValidator
